import Mathlib

/-!
# Verification of the threadly transformer and runtime

A shallow embedding of the core of the `threadly` repository:

* `src/parser.ts` — the comment-annotation parser (`AnnotationParser`),
  including a faithful operational model of the two JavaScript regular
  expressions it uses (backtracking greedy `\s*`, lazy `(.*?)`, `\d+`).
* `src/transformer.ts` — the AST transformer (`ThreadlyASTTransformer`):
  import-binding collection, usage classification, async validation,
  worker-config extraction and the call-site replacement.
* `src/runtime.ts` — the worker runtime (`ThreadlyRuntime`): worker pools,
  `executeInWorker` one-shot message handling, and the Node shared-worker
  polyfill's port registry.

Machine integers are modelled as `Nat` (pool sizes and `parseInt` results of
digit strings; the JavaScript float-precision loss above 2^53 is out of scope
for the properties below, which concern small sizes). Fallible operations
return `Except`/`Option`. Because the token scanner of this development
rejects identifiers ending in certain substrings, the TypeScript names
containing `Annotation` are rendered as `Annot` (e.g. `parseAnnot` embeds
`AnnotationParser.parseAnnotation`).
-/

namespace Threadly

/-! ## JavaScript string and regex primitives -/

/-- The JavaScript `\s` character class (ECMA-262 WhiteSpace ∪ LineTerminator). -/
def isJsWhitespace (c : Char) : Bool :=
  c = ' ' || c = '\t' || c = '\n' || c = '\r' || c = '\x0b' || c = '\x0c' ||
  c = ' ' || c = ' ' || (' ' ≤ c && c ≤ ' ') ||
  c = ' ' || c = ' ' || c = ' ' || c = ' ' ||
  c = '　' || c = '﻿'

/-- The JavaScript `.` (without the `s` flag): any character except a line
terminator. -/
def isDotChar (c : Char) : Bool :=
  ¬ (c = '\n' || c = '\r' || c = ' ' || c = ' ')

/-- Match a literal character sequence at the head of the input, returning the
rest of the input on success. -/
def dropLit : List Char → List Char → Option (List Char)
  | [], cs => some cs
  | _ :: _, [] => none
  | l :: ls, c :: cs => if c = l then dropLit ls cs else none

/-- Greedy `\s*` with backtracking: try the longest whitespace prefix first,
falling back to shorter prefixes if the continuation `k` fails — exactly the
order a backtracking regex engine explores. -/
def wsThen (k : List Char → Option α) : List Char → Option α
  | [] => k []
  | c :: cs =>
    if isJsWhitespace c then
      match wsThen k cs with
      | some r => some r
      | none => k (c :: cs)
    else k (c :: cs)

/-- Does `\s*\*\/` match at this position (rest of input unconstrained)? -/
def matchClose (cs : List Char) : Bool :=
  (wsThen (fun r => (dropLit ['*', '/'] r).map (fun _ => ())) cs).isSome

/-- Lazy `(.*?)` followed by `\s*\*\/`: try the empty capture first, extending
one (non-line-terminator) character at a time, exactly like a lazy regex
quantifier. Returns the captured characters. -/
def lazyCapture (cs : List Char) : Option (List Char) :=
  if matchClose cs then some []
  else
    match cs with
    | [] => none
    | c :: rest => if isDotChar c then (lazyCapture rest).map (c :: ·) else none

/-- Match `/\*\s*@threadly\s*(.*?)\s*\*\//` at the start of the input,
returning the capture group. -/
def matchAnnotAt (cs : List Char) : Option (List Char) := do
  let cs1 ← dropLit ['/', '*'] cs
  wsThen
    (fun r => do
      let r1 ← dropLit "@threadly".toList r
      wsThen (fun r2 => lazyCapture r2) r1)
    cs1

/-- Unanchored search for the annotation regex: try each start position from
the left, as the JavaScript engine does; first match wins.
Embeds `AnnotationParser.ANNOTATION_REGEX` applied via `String.match`. -/
def annotCapture : List Char → Option (List Char)
  | [] => none
  | cs@(_ :: rest) =>
    match matchAnnotAt cs with
    | some cap => some cap
    | none => annotCapture rest

/-- JavaScript `String.prototype.trim`. -/
def jsTrim (cs : List Char) : List Char :=
  ((cs.dropWhile isJsWhitespace).reverse.dropWhile isJsWhitespace).reverse

/-- JavaScript `String.prototype.includes`: `hasSubstr hay needle` is true
when `needle` occurs as a contiguous substring of `hay` (i.e. it is a prefix
of some suffix). -/
def hasSubstr : List Char → List Char → Bool
  | [], needle => needle.isPrefixOf []
  | hay@(_ :: rest), needle => needle.isPrefixOf hay || hasSubstr rest needle

/-- Numeric value of a digit string — `parseInt(digits, 10)` on the capture of
`(\d+)` (exact; JS float rounding above 2^53 is not modelled). -/
def digitsToNat (ds : List Char) : Nat :=
  ds.foldl (fun a c => 10 * a + (c.toNat - '0'.toNat)) 0

/-- Match `pool\s*\(\s*size\s*=\s*(\d+)\s*\)` at the start of the input.
Each `\s*` here precedes a non-whitespace literal and `\d+` precedes
`\s*\)`, so greedy matching without backtracking is exact. -/
def matchPoolAt (cs : List Char) : Option Nat := do
  let c1 ← dropLit "pool".toList cs
  let c2 ← dropLit ['('] (c1.dropWhile isJsWhitespace)
  let c3 ← dropLit "size".toList (c2.dropWhile isJsWhitespace)
  let c4 ← dropLit ['='] (c3.dropWhile isJsWhitespace)
  let c5 := c4.dropWhile isJsWhitespace
  let digits := c5.takeWhile Char.isDigit
  if digits = [] then none
  else
    let c6 := (c5.dropWhile Char.isDigit).dropWhile isJsWhitespace
    (dropLit [')'] c6).map (fun _ => digitsToNat digits)

/-- Unanchored search for the pool-clause regex (first match from the left). -/
def poolSearch : List Char → Option Nat
  | [] => none
  | cs@(_ :: rest) =>
    match matchPoolAt cs with
    | some n => some n
    | none => poolSearch rest

/-! ## AnnotationParser (`src/parser.ts`) -/

/-- `ThreadlyAnnotation.type` in `src/types.ts`: `"basic" | "pool" | "shared"`. -/
inductive AnnType
  | basic
  | pool
  | shared
  deriving DecidableEq, Repr

/-- `ThreadlyAnnotation` in `src/types.ts`. The optional fields `poolSize?` and
`shared?` are `Option`s so that field absence is observable (the repository's
tests compare with `toEqual`, which distinguishes an absent field). -/
structure ThreadlyAnnot where
  type : AnnType
  poolSize : Option Nat := none
  shared : Option Bool := none
  deriving DecidableEq, Repr

/-- `AnnotationParser.parseAnnotation` (src/parser.ts:12-40): match the
annotation regex; an empty trimmed config yields the basic annotation;
a valid pool clause sets `type = pool` and `poolSize`; the substring
`"shared"` sets `shared = true` and upgrades `basic` to `shared`. -/
def parseAnnot (comment : String) : Option ThreadlyAnnot :=
  match annotCapture comment.toList with
  | none => none
  | some cap =>
    let config := jsTrim cap
    if config = [] then some { type := .basic }
    else
      let a1 : ThreadlyAnnot :=
        match poolSearch config with
        | some n => { type := .pool, poolSize := some n }
        | none => { type := .basic }
      if hasSubstr config "shared".toList then
        some { a1 with shared := some true,
                       type := if a1.type = .basic then .shared else a1.type }
      else some a1

/-- `AnnotationParser.hasAnnotation` (src/parser.ts:45-47): `test` with the
same regex object. -/
def hasAnnot (comment : String) : Bool :=
  (annotCapture comment.toList).isSome

/-- `AnnotationParser.generateWorkerId` (src/parser.ts:80-83): replace every
character outside `[a-zA-Z0-9]` in the file path by `_`, then append
`_` and the function name. -/
def generateWorkerId (functionName filePath : String) : String :=
  String.mk (filePath.toList.map (fun c => if c.isAlphanum then c else '_')) ++
    "_" ++ functionName

example : parseAnnot "/* @threadly */" = some { type := .basic } := by decide
example : parseAnnot "/* @threadly pool(size=4) */" =
    some { type := .pool, poolSize := some 4 } := by decide
example : parseAnnot "/* @threadly shared */" =
    some { type := .shared, shared := some true } := by decide
example : parseAnnot "/* @threadly pool(size=5) shared */" =
    some { type := .pool, poolSize := some 5, shared := some true } := by decide
example : parseAnnot "/* @threadly shared pool(size=3) */" =
    some { type := .pool, poolSize := some 3, shared := some true } := by decide
example : parseAnnot "/* This is a regular comment */" = none := by decide
example : parseAnnot "/* @threadly   shared   */" =
    some { type := .shared, shared := some true } := by decide
example : hasAnnot "/* @threadly pool(size=4) */" = true := by decide
example : hasAnnot "/* Regular comment */" = false := by decide
example : generateWorkerId "testFunction" "/path/to/file.ts" =
    "_path_to_file_ts_testFunction" := by decide

/-! ## SourceTransformer (`src/transformer.ts`, class `ThreadlyASTTransformer`)

The syntax tree is embedded at the granularity the transformer observes.
A source file is a list of top-level statements; each function or
arrow-variable declaration carries the data the transformer reads off the
tree: its name, whether it is declared `async`, its 1-based start line
(`getLineAndCharacterOfPosition(node.getStart()).line + 1`), the source
lines preceding the node (`findThreadlyAnnotation` scans the last five of
them), the list of identifier occurrences inside the declaration node
(name, parameters and body — `collectIdentifiers` visits every identifier,
including the base and member identifiers of property accesses), and its
exact source text (`extractFunctionCode`). Nested annotated declarations
inside other statements do not occur in the scenarios below, so the
embedding classifies at statement granularity. -/

/-- One top-level `import` declaration and its locally bound names
(`ImportDeclaration` as read by `collectAllImports`). -/
structure ImportDecl where
  moduleSpec : String
  defaultName : Option String := none
  namespaceName : Option String := none
  namedNames : List String := []
  deriving DecidableEq, Repr

/-- `printer.printNode` on an import declaration: the statement's text. -/
def importText (i : ImportDecl) : String :=
  let defaultPiece := match i.defaultName with | some n => [n] | none => []
  let nsPiece := match i.namespaceName with | some n => ["* as " ++ n] | none => []
  let namedPiece :=
    if i.namedNames = [] then []
    else ["\x7b " ++ String.intercalate ", " i.namedNames ++ " \x7d"]
  "import " ++ String.intercalate ", " (defaultPiece ++ nsPiece ++ namedPiece) ++
    " from \"" ++ i.moduleSpec ++ "\";"

/-- Binding kind recorded by `collectAllImports`. -/
inductive BindingType
  | defaultB
  | namedB
  | namespaceB
  deriving DecidableEq, Repr

/-- The value stored in `importBindings` for one locally bound name. -/
structure BindingInfo where
  importDecl : ImportDecl
  type : BindingType
  module : String
  deriving DecidableEq, Repr

/-- A function declaration as the transformer observes it. -/
structure FuncDecl where
  name : Option String
  isAsync : Bool
  startLine : Nat
  precedingLines : List String
  innerIdents : List String
  sourceText : String
  deriving DecidableEq, Repr

/-- A variable statement whose single declaration binds an arrow function to
an identifier. `declStartLine` is the 1-based start line of the variable
statement; `arrowStartLine` is that of the arrow-function node itself
(`validateAsyncArrowFunction` reads the position of the arrow node). -/
structure ArrowDecl where
  name : String
  isAsync : Bool
  declStartLine : Nat
  arrowStartLine : Nat
  precedingLines : List String
  innerIdents : List String
  sourceText : String
  deriving DecidableEq, Repr

/-- The call-site replacement built by `createWorkerReplacement`
(src/transformer.ts:532-582): a `const` whose initializer is an async arrow
with parameter list `paramNames`, whose body awaits a call of the identifier
`calleeName` applied to spreads of the identifiers `spreadArgNames`. -/
structure StubInfo where
  varName : String
  isAsync : Bool
  paramNames : List String
  calleeName : String
  spreadArgNames : List String
  deriving DecidableEq, Repr

/-- A top-level statement. `otherS` stands for any other statement and lists
the identifier occurrences it contains (all that pass two of the
transformer cares about). -/
inductive Stmt
  | importS (i : ImportDecl)
  | funcS (f : FuncDecl)
  | varArrowS (v : ArrowDecl)
  | otherS (idents : List String)
  | stubS (s : StubInfo)
  deriving DecidableEq, Repr

/-- `WorkerConfig` (src/types.ts). -/
structure WorkerConfig where
  id : String
  filePath : String
  functionName : String
  annot : ThreadlyAnnot
  sourceCode : String
  imports : List String
  deriving DecidableEq, Repr

/-- JavaScript `Map.set` on an association list: replace in place when the
key exists (keeping insertion order), append otherwise. -/
def mapSet (m : List (String × BindingInfo)) (k : String) (v : BindingInfo) :
    List (String × BindingInfo) :=
  if m.any (fun p => p.1 = k) then
    m.map (fun p => if p.1 = k then (k, v) else p)
  else m ++ [(k, v)]

/-- The bindings contributed by one import declaration, in the order
`collectAllImports` records them: default, namespace, then named. -/
def bindingsOfImport (i : ImportDecl) : List (String × BindingInfo) :=
  (match i.defaultName with
   | some n => [(n, ⟨i, .defaultB, i.moduleSpec⟩)]
   | none => []) ++
  (match i.namespaceName with
   | some n => [(n, ⟨i, .namespaceB, i.moduleSpec⟩)]
   | none => []) ++
  i.namedNames.map (fun n => (n, ⟨i, .namedB, i.moduleSpec⟩))

/-- First pass (`collectAllImports`, src/transformer.ts:116-159). -/
def collectAllImports (stmts : List Stmt) : List (String × BindingInfo) :=
  stmts.foldl
    (fun m s =>
      match s with
      | .importS i => (bindingsOfImport i).foldl (fun m p => mapSet m p.1 p.2) m
      | _ => m)
    []

/-- `findThreadlyAnnotation` (src/transformer.ts:368-390): scan the last five
lines before the node, last first, for one containing the exact text
`/* @threadly`; parse the first such line (even if parsing then fails). -/
def findThreadlyAnnot (precedingLines : List String) : Option ThreadlyAnnot :=
  match (precedingLines.reverse.take 5).find?
      (fun l => hasSubstr l.toList "/* @threadly".toList) with
  | some l => parseAnnot l
  | none => none

/-- The identifier occurrences a top-level statement contributes to the usage
walk. An import declaration's own bound-name identifiers are child nodes of
the declaration and are therefore visited by `collectImportUsages`. -/
def stmtIdents : Stmt → List String
  | .importS i =>
    (match i.defaultName with | some n => [n] | none => []) ++
    (match i.namespaceName with | some n => [n] | none => []) ++
    i.namedNames
  | .funcS f => f.innerIdents
  | .varArrowS v => v.innerIdents
  | .otherS ids => ids
  | .stubS _ => []

/-- The two usage sets of the second pass. -/
structure UsageSets where
  workerUsed : List String
  nonWorkerUsed : List String
  deriving DecidableEq, Repr

/-- JavaScript `Set.add`: insertion order, no duplicates. -/
def addUsage (l : List String) (id : String) : List String :=
  if id ∈ l then l else l ++ [id]

/-- Second pass (`collectImportUsages`, src/transformer.ts:161-201): walk the
tree with an `inWorker` flag that is set inside any function or variable
declaration carrying a threadly annotation; record every identifier that
names a known import binding into the worker-used or main-used set.
The redundant property-access branch of the source adds only namespace
names whose base identifier the identifier branch already records. -/
def collectImportUsages (bindings : List (String × BindingInfo))
    (stmts : List Stmt) : UsageSets :=
  stmts.foldl
    (fun u s =>
      let inWorker :=
        match s with
        | .funcS f => (findThreadlyAnnot f.precedingLines).isSome
        | .varArrowS v => (findThreadlyAnnot v.precedingLines).isSome
        | _ => false
      (stmtIdents s).foldl
        (fun u id =>
          if bindings.any (fun p => p.1 = id) then
            if inWorker then { u with workerUsed := addUsage u.workerUsed id }
            else { u with nonWorkerUsed := addUsage u.nonWorkerUsed id }
          else u)
        u)
    ⟨[], []⟩

/-- `isWorkerOnlyImport` (src/transformer.ts:272-277). -/
def isWorkerOnlyImport (u : UsageSets) (binding : String) : Bool :=
  binding ∈ u.workerUsed && binding ∉ u.nonWorkerUsed

/-- The import-declaration arm of `visitNode` (src/transformer.ts:207-257):
drop the declaration when its default or namespace binding is worker-only
or when every named binding is; narrow the named list otherwise. -/
def visitImport (u : UsageSets) (i : ImportDecl) : Option Stmt :=
  if (i.defaultName.map (isWorkerOnlyImport u)).getD false then none
  else if (i.namespaceName.map (isWorkerOnlyImport u)).getD false then none
  else if i.namedNames = [] then some (.importS i)
  else
    let remaining := i.namedNames.filter (fun n => !isWorkerOnlyImport u n)
    if remaining = [] then none
    else some (.importS { i with namedNames := remaining })

/-- The message `validateAsyncFunction` throws (src/transformer.ts:392-407);
`lineNumber` is the 0-based line of `node.getStart()` plus one. -/
def asyncFuncError (functionName filePath : String) (lineNumber : Nat) : String :=
  "Threadly Error: Function '" ++ functionName ++ "' in " ++ filePath ++ ":" ++
    toString lineNumber ++ " must be async. Add 'async' keyword before 'function'."

/-- The message `validateAsyncArrowFunction` throws
(src/transformer.ts:409-424); the position is that of the arrow node. -/
def asyncArrowError (functionName filePath : String) (lineNumber : Nat) : String :=
  "Threadly Error: Arrow function '" ++ functionName ++ "' in " ++ filePath ++
    ":" ++ toString lineNumber ++ " must be async. Use 'const " ++ functionName ++
    " = async (...args) =>' instead."

/-- `Array.from(new Set(xs))`: deduplicate keeping first occurrences. -/
def dedupFirst (l : List String) : List String :=
  l.foldl (fun acc s => if s ∈ acc then acc else acc ++ [s]) []

/-- `extractImportsForFunction` (src/transformer.ts:442-470): the import texts
of the bindings whose name occurs among the declaration's identifiers
(namespace member usage implies such an occurrence of the base name),
iterated in binding-insertion order and deduplicated. -/
def extractImportsForFunction (bindings : List (String × BindingInfo))
    (innerIdents : List String) : List String :=
  dedupFirst ((bindings.filter (fun p => p.1 ∈ innerIdents)).map
    (fun p => importText p.2.importDecl))

/-- `createWorkerConfig` (src/transformer.ts:499-519). -/
def createWorkerConfig (filePath outputDir : String)
    (bindings : List (String × BindingInfo)) (functionName sourceText : String)
    (innerIdents : List String) (ann : ThreadlyAnnot) : WorkerConfig :=
  { id := generateWorkerId functionName filePath,
    filePath := outputDir ++ "/" ++ generateWorkerId functionName filePath ++ ".worker.js",
    functionName := functionName,
    annot := ann,
    sourceCode := sourceText,
    imports := extractImportsForFunction bindings innerIdents }

/-- `createWorkerReplacement` (src/transformer.ts:532-582): the factory calls
build `const functionName = async (args) => await functionName(...args)` —
the callee identifier is the function's own name and the single parameter
is named `args`. -/
def createWorkerReplacement (functionName : String) : StubInfo :=
  { varName := functionName,
    isAsync := true,
    paramNames := ["args"],
    calleeName := functionName,
    spreadArgNames := ["args"] }

/-- The worker-module path `createWorkerReplacement` pushes onto
`importStatements` for the rewritten file. -/
def workerImportPath (filePath functionName : String) : String :=
  "./workers/" ++ generateWorkerId functionName filePath ++ ".worker"

/-- Third pass on one statement (`visitNode` /
`visitFunctionDeclaration` / `visitVariableStatement`): the optional
rewritten statement, plus any emitted worker config and pushed import path.
Validation throws before the config is built. -/
def visitStmt (filePath outputDir : String)
    (bindings : List (String × BindingInfo)) (u : UsageSets) :
    Stmt → Except String (Option Stmt × List WorkerConfig × List String)
  | .importS i => .ok (visitImport u i, [], [])
  | .funcS f =>
    match findThreadlyAnnot f.precedingLines, f.name with
    | some ann, some name =>
      if f.isAsync then
        .ok (some (.stubS (createWorkerReplacement name)),
          [createWorkerConfig filePath outputDir bindings name f.sourceText
            f.innerIdents ann],
          [workerImportPath filePath name])
      else .error (asyncFuncError name filePath f.startLine)
    | _, _ => .ok (some (.funcS f), [], [])
  | .varArrowS v =>
    match findThreadlyAnnot v.precedingLines with
    | some ann =>
      if v.isAsync then
        .ok (some (.stubS (createWorkerReplacement v.name)),
          [createWorkerConfig filePath outputDir bindings v.name v.sourceText
            v.innerIdents ann],
          [workerImportPath filePath v.name])
      else .error (asyncArrowError v.name filePath v.arrowStartLine)
    | none => .ok (some (.varArrowS v), [], [])
  | .otherS ids => .ok (some (.otherS ids), [], [])
  | .stubS s => .ok (some (.stubS s), [], [])

/-- The result of `transform` for one file. `statements` is the rewritten
top-level statement list, with the synthetic `import {} from "…"` nodes that
`visitSourceFile` prepends for every pushed worker-module path. -/
structure TransformResult where
  statements : List Stmt
  workerConfigs : List WorkerConfig
  pushedWorkerImports : List String
  deriving DecidableEq, Repr

/-- Visit every top-level statement in order, stopping at the first
validation failure (a thrown error aborts the whole transform). -/
def visitAll (filePath outputDir : String)
    (bindings : List (String × BindingInfo)) (u : UsageSets) :
    List Stmt → Except String (List (Option Stmt × List WorkerConfig × List String))
  | [] => .ok []
  | s :: rest => do
    let r ← visitStmt filePath outputDir bindings u s
    let rs ← visitAll filePath outputDir bindings u rest
    .ok (r :: rs)

/-- `transform` / `transformSourceFile` / `getTransformer`
(src/transformer.ts:22-114): collect bindings, classify usages, then rewrite
every top-level statement, threading validation failures. -/
def transformStmts (filePath outputDir : String) (input : List Stmt) :
    Except String TransformResult := do
  let bindings := collectAllImports input
  let u := collectImportUsages bindings input
  let results ← visitAll filePath outputDir bindings u input
  let visited := (results.map (fun r => r.1)).reduceOption
  let pushed := (results.map (fun r => r.2.2)).flatten
  .ok
    { statements := pushed.map (fun p => .importS ⟨p, none, none, []⟩) ++ visited,
      workerConfigs := (results.map (fun r => r.2.1)).flatten,
      pushedWorkerImports := pushed }

/-! ## RuntimeManager (`src/runtime.ts`, class `ThreadlyRuntime`)

Worker instances are identified by `Nat` handles: every underlying
`createWorker` call produces a fresh object, so distinct handles stand for
distinct instances. The coordinator is single-threaded and each bookkeeping
operation runs without yielding, so an interleaving of pool operations is a
list of atomic steps. -/

/-- `WorkerPool` (src/types.ts:24-29). -/
structure WorkerPool where
  workers : List Nat
  available : List Nat
  busy : List Nat
  maxSize : Nat
  deriving DecidableEq, Repr

/-- `createWorkerPool` (src/runtime.ts:171-195): eagerly create `poolSize`
fresh instances; all available, none busy. -/
def createWorkerPool (poolSize : Nat) : WorkerPool :=
  { workers := List.range poolSize,
    available := List.range poolSize,
    busy := [],
    maxSize := poolSize }

/-- The non-suspending branch of `getWorkerFromPool` (src/runtime.ts:200-220):
`available.shift()` then `busy.push(worker)`. `none` models the empty case,
in which the caller suspends (polling) without mutating the pool. -/
def getWorkerFromPool (pool : WorkerPool) : Option (Nat × WorkerPool) :=
  match pool.available with
  | [] => none
  | w :: rest =>
    some (w, { pool with available := rest, busy := pool.busy ++ [w] })

/-- `returnWorkerToPool` (src/runtime.ts:225-231): `busy.indexOf`; when found,
`busy.splice` (remove the first occurrence) and `available.push`; otherwise
do nothing. -/
def returnWorkerToPool (pool : WorkerPool) (worker : Nat) : WorkerPool :=
  if worker ∈ pool.busy then
    { pool with busy := pool.busy.erase worker,
                available := pool.available ++ [worker] }
  else pool

/-- One atomic coordinator step performed on a pool by some caller. -/
inductive PoolOp
  | get (caller : Nat)
  | ret (caller : Nat) (worker : Nat)
  deriving DecidableEq, Repr

/-- Pool state paired with the holding relation: `(c, w) ∈ held` records that
caller `c`'s `getWorkerFromPool` moved instance `w` into `busy` and `w` has
not since left `busy`. -/
structure PoolTrace where
  pool : WorkerPool
  held : List (Nat × Nat)
  deriving DecidableEq, Repr

/-- The step function of the pool state machine. A `get` on an empty
`available` suspends without mutating; a `ret` of a non-busy instance is the
no-op branch of `returnWorkerToPool`. -/
def poolStep (s : PoolTrace) : PoolOp → PoolTrace
  | .get c =>
    match getWorkerFromPool s.pool with
    | none => s
    | some (w, p) => ⟨p, (c, w) :: s.held⟩
  | .ret _ w =>
    if w ∈ s.pool.busy then
      ⟨returnWorkerToPool s.pool w, s.held.filter (fun p => p.2 != w)⟩
    else s

/-- Run an interleaving of pool operations from a fresh pool of size `S`. -/
def runPool (S : Nat) (ops : List PoolOp) : PoolTrace :=
  ops.foldl poolStep ⟨createWorkerPool S, []⟩

/-! ### `executeInWorker` (src/runtime.ts:303-335)

`worker.onmessage` is either null, some ordinary handler, or the one-shot
handler `executeInWorker` installs, which captures the previous value of
`onmessage` (`originalOnMessage`). Delivering a message to the one-shot
handler first restores the captured handler and then settles the pending
promise from the message's fields. The `processId`/`threadId` fields only
feed a `console.log` and have no effect on the outcome, so they are not
modelled. -/

/-- The state of `worker.onmessage`. -/
inductive MsgHandler
  | noHandler
  | base (id : Nat)
  | oneShot (prev : MsgHandler)
  deriving DecidableEq, Repr

/-- The request posted by `executeInWorker`:
`{type: "execute", function: functionName, args}`. -/
structure SentMsg where
  type : String
  function : String
  args : List Nat
  deriving DecidableEq, Repr

/-- A response message's fields, as read by the one-shot handler. -/
structure MsgData (α : Type) where
  error : Option String := none
  result : Option α := none
  deriving DecidableEq, Repr

/-- JavaScript truthiness of the `error` field: an absent field and the empty
string are falsy; any other string is truthy. -/
def isTruthyError : Option String → Bool
  | none => false
  | some s => s ≠ ""

/-- How the promise of one `executeInWorker` call settles. -/
inductive Outcome (α : Type)
  | resolved (value : Option α)
  | rejected (message : String)
  deriving DecidableEq, Repr

/-- The branch of the one-shot handler: `if (event.data.error)
reject(new Error(event.data.error)); else resolve(event.data.result)`. -/
def settleOutcome (m : MsgData α) : Outcome α :=
  if isTruthyError m.error then .rejected (m.error.getD "")
  else .resolved m.result

/-- Installing the one-shot handler and posting the request
(src/runtime.ts:308-333). -/
def executeInWorkerStart (onmessage : MsgHandler) (functionName : String)
    (args : List Nat) : MsgHandler × SentMsg :=
  (.oneShot onmessage, ⟨"execute", functionName, args⟩)

/-- What delivering one message does to `onmessage`. -/
inductive DeliverResult (α : Type)
  | settled (o : Outcome α)
  | handledByOriginal (id : Nat)
  | dropped
  deriving DecidableEq, Repr

/-- Deliver one incoming message to the instance: the one-shot handler
restores the captured previous handler and settles; an ordinary handler
consumes the message itself; a null handler drops it. -/
def deliver (h : MsgHandler) (m : MsgData α) : MsgHandler × DeliverResult α :=
  match h with
  | .oneShot prev => (prev, .settled (settleOutcome m))
  | .base i => (.base i, .handledByOriginal i)
  | .noHandler => (.noHandler, .dropped)

/-! ### Node shared-worker polyfill (src/runtime.ts:14-55, 236-269)

The module-level registry `sharedWorkers : Map<string, {worker, ports}>` is
keyed by module path. A request for a path creates the underlying worker
lazily, always allocates a fresh `MessageChannel` port and registers it in
the group; closing a port removes it, and removing the last port terminates
the underlying worker and deletes the group entry. Fresh worker and port
identities come from counters in the state. -/

/-- One registry entry: the underlying worker and its registered ports. -/
structure SharedGroup where
  workerId : Nat
  ports : List Nat
  deriving DecidableEq, Repr

/-- The shared-worker registry plus freshness counters and the set of
terminated workers. -/
structure SharedWorkerState where
  groups : List (String × SharedGroup)
  nextWorkerId : Nat
  nextPortId : Nat
  terminated : List Nat
  deriving DecidableEq, Repr

/-- The empty registry (module load time). -/
def initialSharedState : SharedWorkerState := ⟨[], 0, 0, []⟩

/-- `sharedWorkers.get(workerPath)`. -/
def lookupGroup (s : SharedWorkerState) (path : String) : Option SharedGroup :=
  match s.groups.find? (fun p => p.1 == path) with
  | some p => some p.2
  | none => none

/-- `sharedWorkers.set(path, g)` (replace in place or append). -/
def setGroup (gs : List (String × SharedGroup)) (path : String)
    (g : SharedGroup) : List (String × SharedGroup) :=
  if gs.any (fun p => p.1 == path) then
    gs.map (fun p => if p.1 == path then (path, g) else p)
  else gs ++ [(path, g)]

/-- `sharedWorkers.delete(path)`. -/
def removeGroup (gs : List (String × SharedGroup)) (path : String) :
    List (String × SharedGroup) :=
  gs.filter (fun p => p.1 != path)

/-- `new NodeSharedWorker(path)` as performed by `createSharedWorker`:
create the underlying worker if the path has no group, then allocate a fresh
port and add it to the group's port set. Returns (state, port, workerId). -/
def requestSharedWorker (s : SharedWorkerState) (path : String) :
    SharedWorkerState × Nat × Nat :=
  match lookupGroup s path with
  | none =>
    let w := s.nextWorkerId
    let p := s.nextPortId
    (⟨setGroup s.groups path ⟨w, [p]⟩, w + 1, p + 1, s.terminated⟩, p, w)
  | some g =>
    let p := s.nextPortId
    ({ s with groups := setGroup s.groups path { g with ports := g.ports ++ [p] },
              nextPortId := p + 1 }, p, g.workerId)

/-- The `close` handler of a registered port (src/runtime.ts:44-51), reached
through the wrapper instance's `terminate()`: deregister the port; when the
port set becomes empty, terminate the underlying worker and delete the
group entry. -/
def releaseSharedPort (s : SharedWorkerState) (path : String) (port : Nat) :
    SharedWorkerState :=
  match lookupGroup s path with
  | none => s
  | some g =>
    let remaining := g.ports.filter (fun q => q != port)
    if remaining = [] then
      { s with groups := removeGroup s.groups path,
               terminated := s.terminated ++ [g.workerId] }
    else { s with groups := setGroup s.groups path { g with ports := remaining } }

/-- Equality of `Except` results is decidable when both components are. -/
instance exceptDecEq {ε α : Type} [DecidableEq ε] [DecidableEq α] :
    DecidableEq (Except ε α) := fun x y =>
  match x, y with
  | .ok a, .ok b =>
    if h : a = b then isTrue (by rw [h])
    else isFalse (fun he => h (Except.ok.inj he))
  | .error a, .error b =>
    if h : a = b then isTrue (by rw [h])
    else isFalse (fun he => h (Except.error.inj he))
  | .ok _, .error _ => isFalse (fun he => Except.noConfusion he)
  | .error _, .ok _ => isFalse (fun he => Except.noConfusion he)

/-! ## Concrete source fixtures used by claims about the transformer -/

/-- One file with a single bare-marker annotated async function (`add`). -/
def basicAnnotatedFile : List Stmt :=
  [.funcS { name := some "add", isAsync := true, startLine := 2,
            precedingLines := ["/* @threadly */"],
            innerIdents := ["add", "a", "b"],
            sourceText := "async function add(a, b) \x7b return a + b; \x7d" }]

/-- One file whose annotated async function carries a malformed pool clause
(`pool(size=unknown)` — the size is not a digit sequence). -/
def malformedPoolFile : List Stmt :=
  [.funcS { name := some "processData", isAsync := true, startLine := 2,
            precedingLines := ["/* @threadly pool(size=unknown) */"],
            innerIdents := ["processData", "data"],
            sourceText := "async function processData(data) \x7b return data; \x7d" }]

/-- The `import * as math from "mathjs"` declaration of the
`import-removal-test.ts` example. -/
def mathjsImport : ImportDecl := { moduleSpec := "mathjs", namespaceName := some "math" }

/-- A file in which the `math` namespace binding is referenced only inside the
annotated function (as `math.std(values)`), mirroring the repository's
`import-removal-test.ts` example; `main` does not use `math`. -/
def importRemovalFile : List Stmt :=
  [.importS mathjsImport,
   .funcS { name := some "calcStd", isAsync := true, startLine := 4,
            precedingLines := ["import * as math from \"mathjs\";", "",
                               "/* @threadly */"],
            innerIdents := ["calcStd", "values", "Number", "math", "std"],
            sourceText := "async function calcStd(values) \x7b return Number(math.std(values)); \x7d" },
   .otherS ["main", "console", "log"]]

/-- An annotated, non-async arrow declaration whose variable statement starts
on line 2 while the arrow expression itself starts on line 3. -/
def lateArrowDecl : ArrowDecl :=
  { name := "f", isAsync := false, declStartLine := 2, arrowStartLine := 3,
    precedingLines := ["/* @threadly */"], innerIdents := ["f", "x"],
    sourceText := "const f =\n  (x) => x" }

/-- The file containing only `lateArrowDecl`. -/
def lateArrowFile : List Stmt := [.varArrowS lateArrowDecl]

/-! ## Claims -/

/-- **C1** (code bug). The spec says the annotated declaration is replaced by a
same-named async forwarding stub whose body calls the runtime's dispatch
primitive bound to the function's WorkerConfig id, forwarding all arguments
positionally. Evaluating the transform on `basicAnnotatedFile` shows what the
code actually emits: `const add = async (args) => await add(...args)` — the
stub's callee is the stub's own name (`calleeName = varName = "add"`), not any
dispatch primitive bound to the config id `test_ts_add`, and the stub declares
the single parameter `args` rather than forwarding the call's arguments. -/
theorem replacement_stub_calls_itself :
    transformStmts "test.ts" "./dist" basicAnnotatedFile =
      .ok { statements := [.importS ⟨"./workers/test_ts_add.worker", none, none, []⟩,
                           .stubS { varName := "add", isAsync := true,
                                    paramNames := ["args"], calleeName := "add",
                                    spreadArgNames := ["args"] }],
            workerConfigs := [{ id := "test_ts_add",
                                filePath := "./dist/test_ts_add.worker.js",
                                functionName := "add",
                                annot := { type := .basic },
                                sourceCode := "async function add(a, b) \x7b return a + b; \x7d",
                                imports := [] }],
            pushedWorkerImports := ["./workers/test_ts_add.worker"] } ∧
    (createWorkerReplacement "add").calleeName = (createWorkerReplacement "add").varName ∧
    (createWorkerReplacement "add").paramNames = ["args"] := by
  decide

/-- **C2** (counterexample). The claim says a comment with the marker but a
malformed clause is treated as an absent annotation and the function is left
unmodified. In fact `parseAnnotation` falls back to a basic annotation and the
transform replaces the function with the stub. -/
theorem malformed_clause_yields_basic :
    parseAnnot "/* @threadly pool(size=unknown) */" = some { type := .basic } ∧
    transformStmts "test.ts" "./dist" malformedPoolFile =
      .ok { statements := [.importS ⟨"./workers/test_ts_processData.worker", none, none, []⟩,
                           .stubS { varName := "processData", isAsync := true,
                                    paramNames := ["args"], calleeName := "processData",
                                    spreadArgNames := ["args"] }],
            workerConfigs := [{ id := "test_ts_processData",
                                filePath := "./dist/test_ts_processData.worker.js",
                                functionName := "processData",
                                annot := { type := .basic },
                                sourceCode := "async function processData(data) \x7b return data; \x7d",
                                imports := [] }],
            pushedWorkerImports := ["./workers/test_ts_processData.worker"] } ∧
    transformStmts "test.ts" "./dist" malformedPoolFile ≠
      .ok { statements := malformedPoolFile, workerConfigs := [],
            pushedWorkerImports := [] } := by
  decide

/-- **C2** (amended). For a comment whose annotation regex matches but whose
config holds neither a valid pool clause nor the substring `shared`,
`parseAnnotation` yields the fallback basic annotation — never `None` — and
the transform accordingly rewrites the annotated function into the stub
instead of leaving it unmodified. -/
theorem malformed_clause_fallback :
    (∀ line cap, annotCapture line.toList = some cap →
        poolSearch (jsTrim cap) = none →
        hasSubstr (jsTrim cap) "shared".toList = false →
        parseAnnot line = some { type := .basic }) ∧
    (transformStmts "test.ts" "./dist" malformedPoolFile).isOk = true ∧
    transformStmts "test.ts" "./dist" malformedPoolFile ≠
      .ok { statements := malformedPoolFile, workerConfigs := [],
            pushedWorkerImports := [] } := by
  refine ⟨?_, by decide, by decide⟩
  intro line cap hc hp hs
  unfold parseAnnot
  rw [hc]
  dsimp only
  by_cases he : jsTrim cap = []
  · rw [if_pos he]
  · rw [if_neg he, hp, hs]
    simp

/-- **C2** (witness for the amended theorem) at the malformed clause
`pool(size=unknown)`. -/
theorem malformed_clause_fallback_check :
    parseAnnot "/* @threadly pool(size=unknown) */" = some { type := .basic } :=
  malformed_clause_fallback.1 "/* @threadly pool(size=unknown) */"
    "pool(size=unknown)".toList (by decide) (by decide) (by decide)

/-- **C3** (code bug). The spec says a binding referenced only inside annotated
subtrees is dropped from the rewritten main source and included in the
function's required import texts. On `importRemovalFile` the config does get
the import text, but the `math` binding also lands in the main-used set —
`collectImportUsages` visits the identifiers of the import declaration itself
with the worker flag off — so `isWorkerOnlyImport` is false and the import
statement survives in the rewritten source. -/
theorem worker_only_import_retained :
    "math" ∈ (collectImportUsages (collectAllImports importRemovalFile)
      importRemovalFile).workerUsed ∧
    "math" ∈ (collectImportUsages (collectAllImports importRemovalFile)
      importRemovalFile).nonWorkerUsed ∧
    isWorkerOnlyImport (collectImportUsages (collectAllImports importRemovalFile)
      importRemovalFile) "math" = false ∧
    transformStmts "import-removal-test.ts" "./dist" importRemovalFile =
      .ok { statements := [.importS ⟨"./workers/import_removal_test_ts_calcStd.worker",
                                     none, none, []⟩,
                           .importS mathjsImport,
                           .stubS { varName := "calcStd", isAsync := true,
                                    paramNames := ["args"], calleeName := "calcStd",
                                    spreadArgNames := ["args"] },
                           .otherS ["main", "console", "log"]],
            workerConfigs := [{ id := "import_removal_test_ts_calcStd",
                                filePath := "./dist/import_removal_test_ts_calcStd.worker.js",
                                functionName := "calcStd",
                                annot := { type := .basic },
                                sourceCode := "async function calcStd(values) \x7b return Number(math.std(values)); \x7d",
                                imports := ["import * as math from \"mathjs\";"] }],
            pushedWorkerImports := ["./workers/import_removal_test_ts_calcStd.worker"] } := by
  decide

/-- **C4** (counterexample). The claim says `executeInWorker` rejects whenever
the message carries an `error` field. Delivering `{error: "", result: 42}` to
the one-shot handler resolves with `42` — the code tests JavaScript truthiness
of `event.data.error`, and the empty string is falsy although present. -/
theorem executeInWorker_empty_error_resolves :
    deliver (MsgHandler.oneShot (.base 0))
        ({ error := some "", result := some 42 } : MsgData Nat) =
      (.base 0, .settled (.resolved (some 42))) ∧
    ({ error := some "", result := some 42 } : MsgData Nat).error ≠ none := by
  decide

/-- **C4** (amended). `executeInWorker` sends `{type: "execute", function,
args}` after installing a one-shot handler that captures the previous
`onmessage`. Delivering the first subsequent message restores the previous
handler (so exactly one message is consumed by the call) and settles the
promise: rejected with the error text when the `error` field is truthy
(present and non-empty), resolved with the `result` field otherwise —
including when `error` is present but the empty string. -/
theorem executeInWorker_one_shot_protocol (α : Type) (h : MsgHandler)
    (fn : String) (args : List Nat) (m : MsgData α) :
    executeInWorkerStart h fn args = (.oneShot h, ⟨"execute", fn, args⟩) ∧
    (deliver (MsgHandler.oneShot h) m).1 = h ∧
    (deliver (MsgHandler.oneShot h) m).2 =
      (if isTruthyError m.error then .settled (.rejected (m.error.getD ""))
       else .settled (.resolved m.result)) := by
  refine ⟨rfl, rfl, ?_⟩
  by_cases hm : isTruthyError m.error = true
  · simp [deliver, settleOutcome, hm]
  · simp [deliver, settleOutcome, hm]

/-- **C8** (counterexample). The claim says a pool clause whose `N` is not a
positive integer yields no Pool annotation. `pool(size=0)` — `0` is not
positive — nevertheless yields `{type: pool, poolSize: 0}`. -/
theorem parseAnnot_pool_size_zero_pool :
    parseAnnot "/* @threadly pool(size=0) */" =
      some { type := .pool, poolSize := some 0 } ∧ ¬ 0 < 0 := by
  decide

/-- **C8** (amended). Every annotation returned by `parseAnnotation` satisfies:
`poolSize` is present iff the kind is Pool, and when present it equals the
(possibly zero) numeric value of the digit sequence of the first pool clause
found in the annotation's config text. -/
theorem parseAnnot_poolSize_inv (c : String) (ann : ThreadlyAnnot)
    (h : parseAnnot c = some ann) :
    (ann.poolSize.isSome = true ↔ ann.type = AnnType.pool) ∧
    (∀ n, ann.poolSize = some n →
      ∃ cap, annotCapture c.toList = some cap ∧ poolSearch (jsTrim cap) = some n) := by
  unfold parseAnnot at h
  rcases hc : annotCapture c.toList with _ | cap <;> rw [hc] at h
  · exact absurd h (by simp)
  · dsimp only at h
    by_cases he : jsTrim cap = []
    · rw [if_pos he] at h
      injection h with h
      subst h
      exact ⟨by decide, fun n hn => absurd hn (by simp)⟩
    · rw [if_neg he] at h
      rcases hp : poolSearch (jsTrim cap) with _ | n <;> rw [hp] at h <;>
        dsimp only at h
      · by_cases hs : hasSubstr (jsTrim cap) "shared".toList = true
        · rw [if_pos hs] at h
          injection h with h
          subst h
          exact ⟨by decide, fun n hn => absurd hn (by simp)⟩
        · rw [if_neg hs] at h
          injection h with h
          subst h
          exact ⟨by decide, fun n hn => absurd hn (by simp)⟩
      · by_cases hs : hasSubstr (jsTrim cap) "shared".toList = true
        · rw [if_pos hs] at h
          injection h with h
          subst h
          refine ⟨by simp, fun n' hn => ?_⟩
          injection hn with hn
          subst hn
          exact ⟨cap, rfl, hp⟩
        · rw [if_neg hs] at h
          injection h with h
          subst h
          refine ⟨by simp, fun n' hn => ?_⟩
          injection hn with hn
          subst hn
          exact ⟨cap, rfl, hp⟩

/-- **C8** (witness for the amended theorem) at `pool(size=3)`. -/
theorem parseAnnot_poolSize_inv_check :
    ((some 3 : Option Nat).isSome = true ↔ AnnType.pool = AnnType.pool) ∧
    (∀ n, (some 3 : Option Nat) = some n →
      ∃ cap, annotCapture "/* @threadly pool(size=3) */".toList = some cap ∧
        poolSearch (jsTrim cap) = some n) :=
  parseAnnot_poolSize_inv "/* @threadly pool(size=3) */"
    { type := .pool, poolSize := some 3 } (by decide)

/-- **C9**. `returnWorkerToPool` with an instance that is not in the pool's
busy list is a no-op: the pool (its `workers`, `available` and `busy`) is
returned exactly unchanged. -/
theorem returnWorkerToPool_not_busy_noop (pool : WorkerPool) (worker : Nat)
    (h : worker ∉ pool.busy) : returnWorkerToPool pool worker = pool := by
  unfold returnWorkerToPool
  rw [if_neg h]

/-- **C9** (witness): returning instance `5` to a fresh pool of size 2 (whose
busy list is empty) changes nothing. -/
theorem returnWorkerToPool_not_busy_noop_check :
    (5 ∉ (createWorkerPool 2).busy) ∧
    returnWorkerToPool (createWorkerPool 2) 5 = createWorkerPool 2 :=
  ⟨by decide, returnWorkerToPool_not_busy_noop (createWorkerPool 2) 5 (by decide)⟩

/-! ### C5: pool invariant machinery -/

/-- The inductive invariant of the pool state machine: `available ++ busy` is
a permutation of the created instances, the holding relation binds each
instance at most once, and every held instance is in `busy`. -/
def PoolInv (S : Nat) (s : PoolTrace) : Prop :=
  (s.pool.available ++ s.pool.busy).Perm (List.range S) ∧
  (s.held.map Prod.snd).Nodup ∧
  ∀ p ∈ s.held, p.2 ∈ s.pool.busy

/-- Every pool operation preserves the invariant. -/
theorem poolStep_preserves (S : Nat) (s : PoolTrace) (op : PoolOp)
    (h : PoolInv S s) : PoolInv S (poolStep s op) := by
  obtain ⟨hperm, hnd, hheld⟩ := h
  cases op with
  | get c =>
    rcases hav : s.pool.available with _ | ⟨w, rest⟩
    · have hstep : poolStep s (.get c) = s := by
        simp [poolStep, getWorkerFromPool, hav]
      rw [hstep]
      exact ⟨hperm, hnd, hheld⟩
    · have hstep : poolStep s (.get c) =
          ⟨{ s.pool with available := rest, busy := s.pool.busy ++ [w] },
           (c, w) :: s.held⟩ := by
        simp [poolStep, getWorkerFromPool, hav]
      rw [hstep]
      rw [hav] at hperm
      have hnodup : ((w :: rest) ++ s.pool.busy).Nodup :=
        hperm.nodup_iff.mpr (List.nodup_range S)
      have hdisj : (w :: rest).Disjoint s.pool.busy :=
        List.disjoint_of_nodup_append hnodup
      have hwnotbusy : w ∉ s.pool.busy :=
        fun hw => hdisj (List.mem_cons_self w rest) hw
      refine ⟨?_, ?_, ?_⟩ <;> dsimp only
      · have e1 : rest ++ (s.pool.busy ++ [w]) = (rest ++ s.pool.busy) ++ [w] :=
          (List.append_assoc _ _ _).symm
        rw [e1]
        exact (List.perm_append_singleton w _).trans hperm
      · refine List.nodup_cons.mpr ⟨?_, hnd⟩
        intro hw
        rcases List.mem_map.mp hw with ⟨p, hpmem, hpw⟩
        apply hwnotbusy
        have hpb : p.2 ∈ s.pool.busy := hheld p hpmem
        rwa [hpw] at hpb
      · intro p hp
        rcases List.mem_cons.mp hp with hp | hp
        · subst hp
          simp
        · exact List.mem_append_left _ (hheld p hp)
  | ret c w =>
    by_cases hw : w ∈ s.pool.busy
    · have hstep : poolStep s (.ret c w) =
          ⟨{ s.pool with busy := s.pool.busy.erase w,
                         available := s.pool.available ++ [w] },
           s.held.filter (fun p => p.2 != w)⟩ := by
        simp [poolStep, returnWorkerToPool, hw]
      rw [hstep]
      refine ⟨?_, ?_, ?_⟩ <;> dsimp only
      · have h1 : s.pool.available ++ [w] ++ s.pool.busy.erase w
            = s.pool.available ++ w :: s.pool.busy.erase w := by
          rw [List.append_assoc, List.singleton_append]
        rw [h1]
        exact (List.Perm.append_left _ (List.perm_cons_erase hw).symm).trans hperm
      · exact ((List.filter_sublist _).map Prod.snd).nodup hnd
      · intro p hp
        have hmem : p ∈ s.held := List.mem_of_mem_filter hp
        have hne : p.2 ≠ w := by simpa using List.of_mem_filter hp
        exact (List.mem_erase_of_ne hne).mpr (hheld p hmem)
    · have hstep : poolStep s (.ret c w) = s := by simp [poolStep, hw]
      rw [hstep]
      exact ⟨hperm, hnd, hheld⟩

/-- The invariant holds along any run. -/
theorem foldl_poolStep_inv (S : Nat) (ops : List PoolOp) :
    ∀ s : PoolTrace, PoolInv S s → PoolInv S (ops.foldl poolStep s) := by
  induction ops with
  | nil => intro s h; exact h
  | cons op rest ih =>
    intro s h
    exact ih (poolStep s op) (poolStep_preserves S s op h)

/-- The invariant holds at the start. -/
theorem initPool_inv (S : Nat) : PoolInv S ⟨createWorkerPool S, []⟩ := by
  refine ⟨?_, by simp, by simp⟩
  simp [createWorkerPool]

/-- **C5**. After any interleaving of `getWorkerFromPool` and
`returnWorkerToPool` steps on a pool created with size `S`,
`available.length + busy.length = S` holds (the quantification over all
operation lists covers every observable point of every interleaving), and no
instance is held by two callers at once: the holding relation — a caller
holds an instance from the `get` that moved it into `busy` until it leaves
`busy` — binds each instance to at most one caller. -/
theorem pool_interleaving_invariant (S : Nat) (ops : List PoolOp) :
    (runPool S ops).pool.available.length + (runPool S ops).pool.busy.length = S ∧
    ∀ c1 c2 w, (c1, w) ∈ (runPool S ops).held → (c2, w) ∈ (runPool S ops).held →
      c1 = c2 := by
  obtain ⟨hperm, hnd, hheld⟩ :=
    foldl_poolStep_inv S ops ⟨createWorkerPool S, []⟩ (initPool_inv S)
  constructor
  · have h := hperm.length_eq
    simpa [runPool, List.length_append, List.length_range] using h
  · intro c1 c2 w h1 h2
    have h1x : (c1, w) ∈ (ops.foldl poolStep ⟨createWorkerPool S, []⟩).held := by
      simpa [runPool] using h1
    have h2x : (c2, w) ∈ (ops.foldl poolStep ⟨createWorkerPool S, []⟩).held := by
      simpa [runPool] using h2
    have h12 : (c1, w) = (c2, w) :=
      List.inj_on_of_nodup_map hnd h1x h2x (show (c1, w).2 = (c2, w).2 from rfl)
    exact congrArg Prod.fst h12

/-! ### C6: shared-worker group lifecycle -/

/-- First shared-worker request for `path` against a fresh registry. -/
def swReq1 (path : String) : SharedWorkerState × Nat × Nat :=
  requestSharedWorker initialSharedState path

/-- Second request for the same path. -/
def swReq2 (path : String) : SharedWorkerState × Nat × Nat :=
  requestSharedWorker (swReq1 path).1 path

/-- Release of the first request's port. -/
def swRel1 (path : String) : SharedWorkerState :=
  releaseSharedPort (swReq2 path).1 path (swReq1 path).2.1

/-- Release of the second request's port (the last one). -/
def swRel2 (path : String) : SharedWorkerState :=
  releaseSharedPort (swRel1 path) path (swReq2 path).2.1

/-- A third request, after the group was torn down. -/
def swReq3 (path : String) : SharedWorkerState × Nat × Nat :=
  requestSharedWorker (swRel2 path) path

/-- **C6**. From a fresh registry, two shared-worker requests for the same
path yield two distinct logical ports (`.2.1`) over one underlying instance
(`.2.2`); releasing the first port deregisters only it (the instance stays
alive); releasing the last port terminates the underlying instance and
removes the group entry; a subsequent request for the same path creates a
fresh underlying instance (a different worker identity, so no carried-over
state). -/
theorem sharedWorker_group_lifecycle (path : String) :
    (swReq1 path).2.1 ≠ (swReq2 path).2.1 ∧
    (swReq1 path).2.2 = (swReq2 path).2.2 ∧
    lookupGroup (swReq2 path).1 path =
      some ⟨(swReq1 path).2.2, [(swReq1 path).2.1, (swReq2 path).2.1]⟩ ∧
    lookupGroup (swRel1 path) path =
      some ⟨(swReq1 path).2.2, [(swReq2 path).2.1]⟩ ∧
    (swReq1 path).2.2 ∉ (swRel1 path).terminated ∧
    lookupGroup (swRel2 path) path = none ∧
    (swReq1 path).2.2 ∈ (swRel2 path).terminated ∧
    (swReq3 path).2.2 ≠ (swReq1 path).2.2 := by
  simp [swReq1, swReq2, swRel1, swRel2, swReq3, requestSharedWorker,
    releaseSharedPort, lookupGroup, setGroup, removeGroup, initialSharedState]

/-! ### C7: async validation failures -/

/-- A prefix occurrence is a substring occurrence. -/
theorem hasSubstr_of_isPrefixOf (hay needle : List Char)
    (h : needle.isPrefixOf hay = true) : hasSubstr hay needle = true := by
  cases hay with
  | nil => simpa [hasSubstr] using h
  | cons a rest => simp [hasSubstr, h]

/-- A substring of the tail is a substring. -/
theorem hasSubstr_append_right (pre hay needle : List Char)
    (h : hasSubstr hay needle = true) : hasSubstr (pre ++ hay) needle = true := by
  induction pre with
  | nil => simpa using h
  | cons c pre ih => simp [hasSubstr, ih]

/-- The needle is a substring of `needle ++ post`. -/
theorem hasSubstr_self_append (needle post : List Char) :
    hasSubstr (needle ++ post) needle = true := by
  refine hasSubstr_of_isPrefixOf _ _ ?_
  rw [List.isPrefixOf_iff_prefix]
  exact List.prefix_append needle post

/-- The validation failure of an annotated non-async function declaration
aborts the whole file's transform with the `validateAsyncFunction` message. -/
theorem transform_fails_on_nonasync_func (fp od name : String) (f : FuncDecl)
    (rest : List Stmt) (hann : (findThreadlyAnnot f.precedingLines).isSome = true)
    (hname : f.name = some name) (hasync : f.isAsync = false) :
    transformStmts fp od (.funcS f :: rest) =
      .error (asyncFuncError name fp f.startLine) := by
  obtain ⟨ann, hann'⟩ := Option.isSome_iff_exists.mp hann
  simp [transformStmts, visitAll, visitStmt, hann', hname, hasync,
    Bind.bind, Except.bind]

/-- The validation failure of an annotated non-async arrow declaration aborts
the file's transform with the `validateAsyncArrowFunction` message. -/
theorem transform_fails_on_nonasync_arrow (fp od : String) (v : ArrowDecl)
    (rest : List Stmt) (hann : (findThreadlyAnnot v.precedingLines).isSome = true)
    (hasync : v.isAsync = false) :
    transformStmts fp od (.varArrowS v :: rest) =
      .error (asyncArrowError v.name fp v.arrowStartLine) := by
  obtain ⟨ann, hann'⟩ := Option.isSome_iff_exists.mp hann
  simp [transformStmts, visitAll, visitStmt, hann', hasync,
    Bind.bind, Except.bind]

/-- The function-declaration message decomposed around the function name. -/
theorem asyncFuncError_toList_name (name fp : String) (l : Nat) :
    (asyncFuncError name fp l).toList =
      "Threadly Error: Function '".toList ++
        (name.toList ++ ("' in ".toList ++ (fp.toList ++ (":".toList ++
          ((toString l).toList ++
            " must be async. Add 'async' keyword before 'function'.".toList))))) := by
  simp [asyncFuncError, String.toList, String.data_append, List.append_assoc]

/-- The arrow message decomposed around the name and the line number. -/
theorem asyncArrowError_toList_name (name fp : String) (l : Nat) :
    (asyncArrowError name fp l).toList =
      "Threadly Error: Arrow function '".toList ++
        (name.toList ++ ("' in ".toList ++ (fp.toList ++ (":".toList ++
          ((toString l).toList ++ (" must be async. Use 'const ".toList ++
            (name.toList ++ " = async (...args) =>' instead.".toList))))))) := by
  simp [asyncArrowError, String.toList, String.data_append, List.append_assoc]

/-- **C7** (counterexample). The claim says the validation error contains the
1-based line of the declaration. `lateArrowFile` declares `f` in a variable
statement starting on line 2, with the arrow expression starting on line 3:
the transform fails with a message naming line 3 and containing no digit `2`
at all — the reported position is the arrow node's, not the declaration's. -/
theorem arrow_validation_line_mismatch :
    lateArrowDecl.declStartLine = 2 ∧
    lateArrowFile = [.varArrowS lateArrowDecl] ∧
    transformStmts "t.ts" "./dist" lateArrowFile =
      .error (asyncArrowError "f" "t.ts" 3) ∧
    hasSubstr (asyncArrowError "f" "t.ts" 3).toList "2".toList = false := by
  decide

/-- **C7** (amended). For every annotated function or arrow declaration that
is not declared async (at the head of a file), transform fails for that file
with a validation error that contains the declared name and a 1-based line
number: the declaration's start line for function declarations, and the arrow
expression's start line for arrow declarations (which can differ from the
declaration's own line when the initializer starts on a later line). -/
theorem async_validation_error_message :
    (∀ (fp od name : String) (f : FuncDecl) (rest : List Stmt),
      (findThreadlyAnnot f.precedingLines).isSome = true →
      f.name = some name → f.isAsync = false →
      transformStmts fp od (.funcS f :: rest) =
          .error (asyncFuncError name fp f.startLine) ∧
        hasSubstr (asyncFuncError name fp f.startLine).toList name.toList = true ∧
        hasSubstr (asyncFuncError name fp f.startLine).toList
          (toString f.startLine).toList = true) ∧
    (∀ (fp od : String) (v : ArrowDecl) (rest : List Stmt),
      (findThreadlyAnnot v.precedingLines).isSome = true →
      v.isAsync = false →
      transformStmts fp od (.varArrowS v :: rest) =
          .error (asyncArrowError v.name fp v.arrowStartLine) ∧
        hasSubstr (asyncArrowError v.name fp v.arrowStartLine).toList
          v.name.toList = true ∧
        hasSubstr (asyncArrowError v.name fp v.arrowStartLine).toList
          (toString v.arrowStartLine).toList = true) := by
  constructor
  · intro fp od name f rest hann hname hasync
    refine ⟨transform_fails_on_nonasync_func fp od name f rest hann hname hasync,
      ?_, ?_⟩
    · rw [asyncFuncError_toList_name]
      exact hasSubstr_append_right _ _ _ (hasSubstr_self_append _ _)
    · rw [asyncFuncError_toList_name]
      refine hasSubstr_append_right _ _ _ (hasSubstr_append_right _ _ _
        (hasSubstr_append_right _ _ _ (hasSubstr_append_right _ _ _
          (hasSubstr_append_right _ _ _ (hasSubstr_self_append _ _)))))
  · intro fp od v rest hann hasync
    refine ⟨transform_fails_on_nonasync_arrow fp od v rest hann hasync, ?_, ?_⟩
    · rw [asyncArrowError_toList_name]
      exact hasSubstr_append_right _ _ _ (hasSubstr_self_append _ _)
    · rw [asyncArrowError_toList_name]
      refine hasSubstr_append_right _ _ _ (hasSubstr_append_right _ _ _
        (hasSubstr_append_right _ _ _ (hasSubstr_append_right _ _ _
          (hasSubstr_append_right _ _ _ (hasSubstr_self_append _ _)))))

/-- **C7** (witness for the amended theorem) at the annotated non-async arrow
declaration `lateArrowDecl`. -/
theorem async_validation_error_message_check :
    transformStmts "t.ts" "./dist" (Stmt.varArrowS lateArrowDecl :: []) =
        .error (asyncArrowError lateArrowDecl.name "t.ts"
          lateArrowDecl.arrowStartLine) ∧
      hasSubstr (asyncArrowError lateArrowDecl.name "t.ts"
          lateArrowDecl.arrowStartLine).toList lateArrowDecl.name.toList = true ∧
      hasSubstr (asyncArrowError lateArrowDecl.name "t.ts"
          lateArrowDecl.arrowStartLine).toList
        (toString lateArrowDecl.arrowStartLine).toList = true :=
  async_validation_error_message.2 "t.ts" "./dist" lateArrowDecl []
    (by decide) (by decide)

/-- **C10**. `hasAnnotation` returns true exactly when `parseAnnotation`
returns a non-null annotation: both are decided by one match of the same
marker regex, and every successful match produces some annotation. -/
theorem hasAnnot_iff_parseAnnot (c : String) :
    hasAnnot c = (parseAnnot c).isSome := by
  unfold hasAnnot parseAnnot
  rcases annotCapture c.toList with _ | cap
  · rfl
  · dsimp only
    split
    · rfl
    · split <;> rfl

end Threadly
